import Mathlib

set_option autoImplicit false

namespace Lieut

/-!
Shallow embedding of the lieut command-line runtime (github.com/Rican7/lieut):
the error taxonomy of `error.go`, the dispatch/render logic of `lieut.go`
(`Run`, `handleError`, `printError`, `PrintUsageError`, `PrintHelp`,
`printFullUsage`, `printUnknownCommand`, `execute`), and the registration
logic (`SetCommand`, `CommandNames`, `isUniqueFlagSet`, `setupFlagSet`).
Go machine integers only appear as exit/status codes, modelled by `Int`;
no arithmetic overflows in the source.
-/

/-! ## Error taxonomy (error.go)

Errors that can flow through this library are modelled as a wrap chain built
from the vocabulary the library defines and consumes — `errors.New` leaves,
the `ErrHelpRequested` sentinel (`constError "help requested"`), the
`context.Canceled` sentinel (`errors.New "context canceled"` in Go's
context package), `ErrWithStatusCode` (`*statusCodeError`, with `Unwrap`)
and `ErrWithHelpRequested` (`*helpRequestedError`, with `Is` and `Unwrap`) —
plus a generic wrapper for any user error type that reports its own
`Error()` message and exposes a cause through `Unwrap` (such as a
`fmt.Errorf` value or a hand-written struct); callbacks may hand any of
these to the dispatcher.
-/

inductive GoError where
  /-- `errors.New msg` (also any plain leaf error with that message). -/
  | mk (msg : String)
  /-- The `ErrHelpRequested` sentinel (`constError "help requested"`). -/
  | errHelpRequested
  /-- The `context.Canceled` sentinel. -/
  | contextCanceled
  /-- `ErrWithStatusCode inner code`: a `*statusCodeError`. -/
  | statusCodeError (inner : GoError) (code : Int)
  /-- `ErrWithHelpRequested inner`: a `*helpRequestedError`. -/
  | helpRequestedError (inner : GoError)
  /-- A user error type with its own `Error()` message and an `Unwrap`
  yielding `inner` (no `Is` method and no `StatusCode` method). -/
  | wrap (msg : String) (inner : GoError)
deriving DecidableEq, Repr

/-- `err.Error()`: `statusCodeError` and `helpRequestedError` embed the inner
error, so their `Error()` delegates to it; a `wrap` node reports its own
message. -/
def GoError.errorMsg : GoError → String
  | .mk msg => msg
  | .errHelpRequested => "help requested"
  | .contextCanceled => "context canceled"
  | .statusCodeError inner _ => inner.errorMsg
  | .helpRequestedError inner => inner.errorMsg
  | .wrap msg _ => msg

/-- `errors.Is err ErrHelpRequested`: true at the sentinel itself, true at a
`helpRequestedError` node via its `Is` method, and propagated through
`Unwrap` of the wrapper types. -/
def isHelpRequested : GoError → Bool
  | .mk _ => false
  | .errHelpRequested => true
  | .contextCanceled => false
  | .statusCodeError inner _ => isHelpRequested inner
  | .helpRequestedError _ => true
  | .wrap _ inner => isHelpRequested inner

/-- `errors.Is err context.Canceled`: true at the sentinel, propagated
through `Unwrap` of the wrapper types (`helpRequestedError.Is` only
matches `ErrHelpRequested`, so the chain walk continues past it). -/
def isCanceled : GoError → Bool
  | .mk _ => false
  | .errHelpRequested => false
  | .contextCanceled => true
  | .statusCodeError inner _ => isCanceled inner
  | .helpRequestedError inner => isCanceled inner
  | .wrap _ inner => isCanceled inner

/-- `errors.As err &statusErr` followed by `statusErr.StatusCode()`: the
outermost `statusCodeError` in the chain wins; the walk passes through
`helpRequestedError` and `wrap` via `Unwrap` and stops at leaves. -/
def asStatusCode : GoError → Option Int
  | .mk _ => none
  | .errHelpRequested => none
  | .contextCanceled => none
  | .statusCodeError _ code => some code
  | .helpRequestedError inner => asStatusCode inner
  | .wrap _ inner => asStatusCode inner

/-! ## App and command metadata (lieut.go) -/

/-- `AppInfo`: name, summary, usage and version of an app. -/
structure AppInfo where
  name : String
  summary : String
  usage : String
  version : String
deriving DecidableEq, Repr

/-- `CommandInfo`: name, summary and usage of one command. -/
structure CommandInfo where
  name : String
  summary : String
  usage : String
deriving DecidableEq, Repr

/-- `DefaultCommandUsage` (lieut.go). -/
def DefaultCommandUsage : String := "[arguments ...]"

/-- `DefaultParentCommandUsage` (lieut.go). -/
def DefaultParentCommandUsage : String := "<command> [arguments ...]"

/-! ## The flags collaborator at run time

The external flags object together with the `flagSet` wrapper's two bound
booleans is abstracted by its observable behavior: what `Parse` returns and
what the bound `requestedHelp` / `requestedVersion` booleans and `Args()`
hold after `Parse` ran on given arguments, plus the text `PrintDefaults`
writes.  (A `flagSet` is parsed at most once per `Run`, so functions of the
parsed argument list are a faithful abstraction.) -/
structure FlagsRT where
  /-- `Parse arguments`: `some msg` models a non-nil error with that
  `Error()` message. -/
  parseErr : List String → Option String
  /-- `Args()` after a successful `Parse` of the given arguments. -/
  argsAfter : List String → List String
  /-- The wrapper's `requestedHelp` after `Parse` of the given arguments. -/
  helpAfter : List String → Bool
  /-- The wrapper's `requestedVersion` after `Parse` of the given
  arguments. -/
  versionAfter : List String → Bool
  /-- What `PrintDefaults` writes to its configured sink. -/
  defaultsText : String

/-- One registered command as used by `Run`: its info, its executor's
behavior (`some e` models returning the non-nil error `e`), and its flag
set's behavior. -/
structure RunCommand where
  info : CommandInfo
  exec : List String → Option GoError
  flags : FlagsRT

/-- A `MultiCommandApp` as used by `Run`: Go's `map[string]command` is an
association list looked up by first match, plus the separate
`commandNames` order slice.  `onInit = some e` models an init function
returning the non-nil error `e`; `none` covers both no init function and
an init function returning nil (observably identical in `Run`). -/
structure MultiApp where
  info : AppInfo
  flags : FlagsRT
  commands : List (String × RunCommand)
  commandNames : List String
  onInit : Option GoError

/-- A `SingleCommandApp` as used by `Run`. -/
structure SingleApp where
  info : AppInfo
  flags : FlagsRT
  exec : List String → Option GoError
  onInit : Option GoError

/-- Ambient process state: `runtime.GOOS`, `runtime.GOARCH`, and
`os.Args[1:]` (consulted by `Run` when the caller passes no arguments). -/
structure RunEnv where
  goos : String
  goarch : String
  osArgs : List String

/-- `lookupGo m k`: Go map indexing `m[k]` (keys are unique in a Go map;
on the association list the first match is taken). -/
def lookupGo {α : Type} : List (String × α) → String → Option α
  | [], _ => none
  | (k, v) :: rest, key => if k = key then some v else lookupGo rest key

/-! ## Usage/help renderer (lieut.go) -/

/-- `printVersion`: `<name>[ <version>] (<GOOS>/<GOARCH>)\n`. -/
def printVersionLine (env : RunEnv) (info : AppInfo) : String :=
  let identifier :=
    if info.version = "" then info.name else info.name ++ " " ++ info.version
  identifier ++ " (" ++ env.goos ++ "/" ++ env.goarch ++ ")\n"

/-- `app.PrintUsage`: the app-level usage line. -/
def appPrintUsage (info : AppInfo) : String :=
  "Usage: " ++ info.name ++ " " ++ info.usage ++ "\n"

/-- `MultiCommandApp.fullCommandName`. -/
def MultiApp.fullCommandName (a : MultiApp) (commandName : String) : String :=
  match lookupGo a.commands commandName with
  | some cmd => a.info.name ++ " " ++ cmd.info.name
  | none => a.info.name

/-- `MultiCommandApp.PrintUsage`. -/
def MultiApp.printUsage (a : MultiApp) (commandName : String) : String :=
  match lookupGo a.commands commandName with
  | none => appPrintUsage a.info
  | some cmd =>
      "Usage: " ++ a.fullCommandName commandName ++ " " ++ cmd.info.usage ++ "\n"

/-- `printFlagDefaults`: a `\nOptions:\n\n` header followed by the
collaborator's defaults text, but only when that text is non-empty. -/
def printFlagDefaults (f : FlagsRT) : String :=
  if f.defaultsText = "" then "" else "\nOptions:\n\n" ++ f.defaultsText

/-- `printError` (lieut.go): formats `Error: <msg>\n`, or prints nothing
and reports `false` when the message is empty. -/
def printErrorLine (msg : String) : Bool × String :=
  if msg = "" then (false, "") else (true, "Error: " ++ msg ++ "\n")

/-- Go's `%-[1]*s`: left-justify to the given width with spaces.  Go
measures `len` in bytes and `fmt` width in runes; both coincide with
character counts on the ASCII inputs that arise here. -/
def padRight (s : String) (width : Nat) : String :=
  s ++ String.mk (List.replicate (width - s.length) ' ')

/-- The running maximum of command-name lengths (`maxNameLength` loop). -/
def maxNameLength (names : List String) : Nat :=
  names.foldl (fun m n => max m n.length) 0

/-- One row of the top-level command table: `\t<padded name>\t<summary>\n`.
`a.commands[name]` yields the zero-value command when absent (never the
case for names in `commandNames`). -/
def commandTableRow (a : MultiApp) (width : Nat) (name : String) : String :=
  match lookupGo a.commands name with
  | some cmd => "\t" ++ padRight cmd.info.name width ++ "\t" ++ cmd.info.summary ++ "\n"
  | none => "\t" ++ padRight "" width ++ "\t" ++ "\n"

/-- `MultiCommandApp.printFullUsage`. -/
def MultiApp.printFullUsage (a : MultiApp) (commandName : String) : String :=
  match lookupGo a.commands commandName with
  | some cmd =>
      a.printUsage commandName ++
        (if cmd.info.summary = "" then "" else "\n" ++ cmd.info.summary ++ "\n") ++
        printFlagDefaults cmd.flags
  | none =>
      a.printUsage "" ++
        (if a.info.summary = "" then "" else "\n" ++ a.info.summary ++ "\n") ++
        "\nCommands:\n\n" ++
        String.join (a.commandNames.map
          (commandTableRow a (maxNameLength a.commandNames))) ++
        printFlagDefaults a.flags

/-- `MultiCommandApp.PrintHelp`: full usage, a blank line, then the version
line (to the error output). -/
def MultiApp.printHelp (env : RunEnv) (a : MultiApp) (commandName : String) : String :=
  a.printFullUsage commandName ++ "\n" ++ printVersionLine env a.info

/-- `SingleCommandApp.printFullUsage`. -/
def SingleApp.printFullUsage (s : SingleApp) : String :=
  appPrintUsage s.info ++
    (if s.info.summary = "" then "" else "\n" ++ s.info.summary ++ "\n") ++
    printFlagDefaults s.flags

/-- `SingleCommandApp.PrintHelp`. -/
def SingleApp.printHelp (env : RunEnv) (s : SingleApp) : String :=
  s.printFullUsage ++ "\n" ++ printVersionLine env s.info

/-- `MultiCommandApp.PrintUsageError`: the optional error line (with its
trailing spacer line when a non-empty message was printed), the usage line
for the scope, and the re-run hint naming the full command name. -/
def MultiApp.printUsageError (a : MultiApp) (commandName : String)
    (errMsg : Option String) : String :=
  let name := a.fullCommandName commandName
  (match errMsg with
   | some m => if m = "" then "" else "Error: " ++ m ++ "\n" ++ "\n"
   | none => "") ++
    a.printUsage commandName ++
    "\nRun '" ++ name ++ " --help' for usage.\n"

/-- `SingleCommandApp.PrintUsageError`. -/
def SingleApp.printUsageError (s : SingleApp) (errMsg : Option String) : String :=
  (match errMsg with
   | some m => if m = "" then "" else "Error: " ++ m ++ "\n" ++ "\n"
   | none => "") ++
    appPrintUsage s.info ++
    "\nRun '" ++ s.info.name ++ " --help' for usage.\n"

/-- `MultiCommandApp.printUnknownCommand` output text:
`PrintUsageError("", unknown command '<name>')`. -/
def MultiApp.printUnknownText (a : MultiApp) (commandName : String) : String :=
  a.printUsageError "" (some ("unknown command '" ++ commandName ++ "'"))

/-! ## Error-to-exit-code mapping and execution (lieut.go) -/

/-- `handleError` (lieut.go): help-requested errors print their (possibly
suppressed) error line, a spacer, and the scope's help, and default the
exit code to 2; any other error prints just its (possibly suppressed)
error line and defaults to 1; a status-code signal anywhere in the chain
overrides the exit code.  `helpText` is what the `helpPrinter` bound to
the active scope prints (it is always set before `handleError` can run). -/
def handleError (helpText : String) (err : GoError) : Int × String :=
  if isHelpRequested err then
    let body :=
      (if err.errorMsg = "" then "" else "Error: " ++ err.errorMsg ++ "\n" ++ "\n") ++
        helpText
    match asStatusCode err with
    | some n => (n, body)
    | none => (2, body)
  else
    let body := if err.errorMsg = "" then "" else "Error: " ++ err.errorMsg ++ "\n"
    match asStatusCode err with
    | some n => (n, body)
    | none => (1, body)

/-- `execute` (lieut.go): a nil executor error, or one matching
`context.Canceled`, is success (exit 0, nothing printed); any other error
goes through `handleError`. -/
def executeStep (exec : List String → Option GoError) (helpText : String)
    (arguments : List String) : Int × String :=
  match exec arguments with
  | none => (0, "")
  | some err =>
      if isCanceled err then (0, "") else handleError helpText err

/-! ## Run (lieut.go) -/

/-- Observable steps of a `Run`: command resolution (the registry lookup of
the first token), the `Parse` call, the call of `initialize`, and the call
of `execute`. -/
inductive REvent where
  | resolveCommand
  | parseArgs
  | runInit
  | runExec
deriving DecidableEq, Repr

/-- What a `Run` produced: the exit code, the bytes written to the standard
output, the bytes written to the error output, and the steps taken. -/
structure RunResult where
  exit : Int
  outText : String
  errText : String
  events : List REvent
deriving DecidableEq, Repr

/-- The tail of `MultiCommandApp.Run` once a registered command was
resolved: parse the command scope, intercept help/version, then
initialize and execute with the command-scoped help printer. -/
def MultiApp.runResolved (env : RunEnv) (a : MultiApp) (commandName : String)
    (cmd : RunCommand) (rest : List String) : RunResult :=
  match cmd.flags.parseErr rest with
  | some msg =>
      ⟨2, "", a.printUsageError commandName (some msg),
        [.resolveCommand, .parseArgs]⟩
  | none =>
      if cmd.flags.helpAfter rest then
        ⟨0, "", a.printHelp env commandName, [.resolveCommand, .parseArgs]⟩
      else if cmd.flags.versionAfter rest then
        ⟨0, printVersionLine env a.info, "", [.resolveCommand, .parseArgs]⟩
      else
        match a.onInit with
        | some ierr =>
            let r := handleError (a.printHelp env commandName) ierr
            ⟨r.1, "", r.2, [.resolveCommand, .parseArgs, .runInit]⟩
        | none =>
            let r := executeStep cmd.exec (a.printHelp env commandName)
              (cmd.flags.argsAfter rest)
            ⟨r.1, "", r.2, [.resolveCommand, .parseArgs, .runInit, .runExec]⟩

/-- The tail of `MultiCommandApp.Run` when the first token resolved to no
command but is flag-like: the global scope parses the full argument list,
help/version intercepts still apply, and only then is the unknown command
reported. -/
def MultiApp.runUnresolved (env : RunEnv) (a : MultiApp) (commandName : String)
    (args : List String) : RunResult :=
  match a.flags.parseErr args with
  | some msg =>
      ⟨2, "", a.printUsageError commandName (some msg),
        [.resolveCommand, .parseArgs]⟩
  | none =>
      if a.flags.helpAfter args then
        ⟨0, "", a.printHelp env commandName, [.resolveCommand, .parseArgs]⟩
      else if a.flags.versionAfter args then
        ⟨0, printVersionLine env a.info, "", [.resolveCommand, .parseArgs]⟩
      else
        ⟨1, "", a.printUnknownText commandName, [.resolveCommand, .parseArgs]⟩

/-- `MultiCommandApp.Run`: empty caller arguments fall back to
`os.Args[1:]`; an empty registry or empty argument list prints the
top-level help and exits 2; otherwise the first token resolves a command
(an unmatched non-flag-like token is immediately an unknown command,
exit 1), the resolved scope parses, help/version intercept, and the
command initializes and executes.  (With an empty first token the Go code
would panic on `commandName[0]`; no claim exercises that input.) -/
def MultiApp.run (env : RunEnv) (a : MultiApp) (arguments : List String) : RunResult :=
  let args := if arguments = [] then env.osArgs else arguments
  if a.commands.isEmpty || args.isEmpty then ⟨2, "", a.printHelp env "", []⟩
  else
    match args with
    | [] => ⟨2, "", a.printHelp env "", []⟩
    | commandName :: rest =>
        match lookupGo a.commands commandName with
        | some cmd => a.runResolved env commandName cmd rest
        | none =>
            if commandName.data.head? = some '-' then
              a.runUnresolved env commandName (commandName :: rest)
            else
              ⟨1, "", a.printUnknownText commandName, [.resolveCommand]⟩

/-- `SingleCommandApp.Run`: empty caller arguments fall back to
`os.Args[1:]`; parse the global scope, intercept help/version, then
initialize and execute with the app-scoped help printer. -/
def SingleApp.run (env : RunEnv) (s : SingleApp) (arguments : List String) : RunResult :=
  let args := if arguments = [] then env.osArgs else arguments
  match s.flags.parseErr args with
  | some msg => ⟨2, "", s.printUsageError (some msg), [.parseArgs]⟩
  | none =>
      if s.flags.helpAfter args then
        ⟨0, "", s.printHelp env, [.parseArgs]⟩
      else if s.flags.versionAfter args then
        ⟨0, printVersionLine env s.info, "", [.parseArgs]⟩
      else
        match s.onInit with
        | some ierr =>
            let r := handleError (s.printHelp env) ierr
            ⟨r.1, "", r.2, [.parseArgs, .runInit]⟩
        | none =>
            let r := executeStep s.exec (s.printHelp env) (s.flags.argsAfter args)
            ⟨r.1, "", r.2, [.parseArgs, .runInit, .runExec]⟩

/-! ## The flags collaborator at registration time (flags.go)

For registration the collaborator is modelled by its identity (`fid`, the
reference to the underlying object — Go interface values holding the same
pointer are `reflect.DeepEqual`), its registered flag definitions, and
which of the optional capability interfaces (`boolFlagger`,
`boolShortFlagger`, `lookupVarFlagger`, `visitAllFlagger`) its dynamic
type implements. -/

/-- One registered flag: its name, its `flag.Value` (kept opaque — `Var`
copies the same value reference), and its usage text. -/
structure FlagDef where
  name : String
  value : String
  usage : String
deriving DecidableEq, Repr

/-- A flags collaborator object at registration time. -/
structure FlagsObj where
  fid : Nat
  defs : List FlagDef
  hasBoolVar : Bool
  hasBoolVarP : Bool
  hasLookupVar : Bool
  hasVisitAll : Bool
deriving DecidableEq, Repr

/-- `flags.Lookup name`: the first registered flag with that name. -/
def lookupDef (defs : List FlagDef) (name : String) : Option FlagDef :=
  match defs with
  | [] => none
  | d :: rest => if d.name = name then some d else lookupDef rest name

/-- The global→local merge loop of `setupFlagSet` (src/flags.go lines
91–96): visit every global flag and `Var` it into the local scope when no
local flag of that name exists, skipping the managed `version` flag,
which stays global-only (spec §4.1; the repository's own help-output
tests show merged user globals but no `-version` in command scopes). -/
def mergeGlobalDefs : List FlagDef → List FlagDef → List FlagDef
  | [], defs => defs
  | g :: rest, defs =>
      mergeGlobalDefs rest
        (if g.name = "version" then defs
         else
           match lookupDef defs g.name with
           | some _ => defs
           | none => defs ++ [g])

/-- The managed `--help` flag definition. -/
def helpFlagDef : FlagDef := ⟨"help", "&requestedHelp", "Display the help message"⟩

/-- The managed `--version` flag definition. -/
def versionFlagDef : FlagDef := ⟨"version", "&requestedVersion", "Display the application version"⟩

/-- The managed-flag injections of `setupFlagSet`: `--help` (long+short
when the collaborator has `BoolVarP`, long-only when it has `BoolVar`;
the shorthand leaves no trace in this flag-definition model), and
`--version` when the collaborator has `BoolVar` and the scope is the
global one.  `BoolVar` registers a new flag; the bound adapter booleans
are opaque values here.  (Go would panic if the caller had already
defined the same flag name; no claim exercises that input.) -/
def injectManagedFlags (f : FlagsObj) (global : Bool) : FlagsObj :=
  { f with
      defs :=
        (f.defs ++ (if f.hasBoolVarP || f.hasBoolVar then [helpFlagDef] else [])) ++
          (if f.hasBoolVar && global then [versionFlagDef] else []) }

/-- Modelled from the spec: the current `setupFlagSet(flagSet, global
bool)` of flags.go is absent from src/ (src/flags.go holds an older
one-argument revision; the current lieut.go and its tests call the
two-argument form).  Per spec §4.1 it configures the output sink (no
observable effect here), injects the managed `--help` flag into every
capable scope and `--version` into the global scope only, and, for
non-global scopes, merges the global flag definitions into the local
scope without overriding existing local flags — the managed version flag
is never placed in a per-command scope. -/
def setupFlagSet (globalFlags : FlagsObj) (f : FlagsObj) (global : Bool) : FlagsObj :=
  let f := injectManagedFlags f global
  if !global && globalFlags.hasVisitAll && f.hasLookupVar then
    { f with defs := mergeGlobalDefs globalFlags.defs f.defs }
  else f

/-! ## Command registry (lieut.go, flags.go) -/

/-- One registered command as stored by `SetCommand`: its (usage-backfilled)
info, its executor (opaque reference), and its flag set. -/
structure RegCmd where
  info : CommandInfo
  execId : Nat
  flags : FlagsObj
deriving DecidableEq, Repr

/-- A `MultiCommandApp` as used during registration: the global flags
object, the command map (association list, unique keys), the separate
`commandNames` order slice, and an allocator for the fresh default flag
sets `createDefaultFlags` makes. -/
structure RegApp where
  info : AppInfo
  globalFlags : FlagsObj
  commands : List (String × RegCmd)
  commandNames : List String
  nextId : Nat
deriving DecidableEq, Repr

/-- A fresh `NewMultiCommandApp`-style registry over the given global flags
object: no commands yet. -/
def freshRegApp (info : AppInfo) (globalFlags : FlagsObj) : RegApp :=
  ⟨info, globalFlags, [], [], globalFlags.fid + 1⟩

/-- `isUniqueFlagSet` (src/flags.go lines 49–63): `reflect.DeepEqual` of
the candidate against the global flags object and against every
registered command's flags object.  `DeepEqual` is abstracted by the
`deepEq` parameter (theorems only assume that two interface values
holding the same object are deeply equal); a nil candidate is never
deeply equal to the non-nil stored objects. -/
def isUniqueFlagSet (deepEq : FlagsObj → FlagsObj → Bool) (a : RegApp)
    (flags : Option FlagsObj) : Bool :=
  match flags with
  | none => true
  | some f =>
      if deepEq f a.globalFlags then false
      else if a.commands.any (fun p => deepEq f p.2.flags) then false
      else true

/-- `upsertGo m k v`: Go map assignment `m[k] = v` on the association
list (replace the existing entry, else append). -/
def upsertGo {α : Type} : List (String × α) → String → α → List (String × α)
  | [], key, v => [(key, v)]
  | (k, w) :: rest, key, v =>
      if k = key then (k, v) :: rest else (k, w) :: upsertGo rest key v

/-- `createDefaultFlags name` yields a fresh `*flag.FlagSet`: a new
identity, no flags, and the standard library's capabilities (`BoolVar`,
`Lookup`/`Var`, `VisitAll`, but no `BoolVarP`). -/
def createDefaultFlags (fid : Nat) : FlagsObj :=
  ⟨fid, [], true, false, true, true⟩

/-- The usage backfill at the top of `SetCommand`. -/
def backfillUsage (info : CommandInfo) : CommandInfo :=
  if info.usage = "" then { info with usage := DefaultCommandUsage } else info

/-- `MultiCommandApp.SetCommand` (lieut.go lines 183–207): backfill the
usage, reject non-unique flags before any mutation, create default flags
when nil was passed, run `setupFlagSet` on the command scope, append the
name to `commandNames` only when the name is not yet in the command map,
and store the command.  Returns the error (if any) and the resulting
registry state. -/
def setCommandReg (deepEq : FlagsObj → FlagsObj → Bool) (a : RegApp)
    (info : CommandInfo) (execId : Nat) (flags : Option FlagsObj) :
    Option String × RegApp :=
  let info := backfillUsage info
  if !(isUniqueFlagSet deepEq a flags) then
    (some "provided flags are duplicate", a)
  else
    let (fobj, a) :=
      match flags with
      | some f => (f, a)
      | none => (createDefaultFlags a.nextId, { a with nextId := a.nextId + 1 })
    let fobj := setupFlagSet a.globalFlags fobj false
    let names :=
      if (lookupGo a.commands info.name).isSome then a.commandNames
      else a.commandNames ++ [info.name]
    (none,
      { a with
          commands := upsertGo a.commands info.name ⟨info, execId, fobj⟩
          commandNames := names })

/-- One `SetCommand` call in a registration sequence. -/
structure RegEvent where
  info : CommandInfo
  execId : Nat
  flags : Option FlagsObj
deriving DecidableEq, Repr

/-- Apply a registration sequence; a rejected call leaves the registry as
it was. -/
def applyRegs (deepEq : FlagsObj → FlagsObj → Bool) (a : RegApp) :
    List RegEvent → RegApp
  | [] => a
  | e :: rest => applyRegs deepEq (setCommandReg deepEq a e.info e.execId e.flags).2 rest

/-- The names of the calls in a registration sequence that succeed. -/
def successNames (deepEq : FlagsObj → FlagsObj → Bool) (a : RegApp) :
    List RegEvent → List String
  | [] => []
  | e :: rest =>
      match setCommandReg deepEq a e.info e.execId e.flags with
      | (none, a') => e.info.name :: successNames deepEq a' rest
      | (some _, a') => successNames deepEq a' rest

/-- Keep the first occurrence of every name not already in `seen`, in
order. -/
def dedupKeepFirstAux (seen : List String) : List String → List String
  | [] => []
  | n :: rest =>
      if n ∈ seen then dedupKeepFirstAux seen rest
      else n :: dedupKeepFirstAux (seen ++ [n]) rest

/-- Keep the first occurrence of every name, in order. -/
def dedupKeepFirst (l : List String) : List String := dedupKeepFirstAux [] l

/-! ## A heap of string slices, for `CommandNames`

`CommandNames` does `names := make([]string, len(a.commandNames));
copy(names, a.commandNames); return names`: it allocates a fresh backing
array holding a copy of the registry's slice.  To state that the returned
slice is a defensive copy, string slices are given identities in a small
heap. -/

/-- A heap of string slices: cell `r` is the backing array of slice `r`. -/
structure SliceHeap where
  cells : List (List String)
deriving DecidableEq, Repr

/-- Read the contents of slice `r`. -/
def SliceHeap.read (h : SliceHeap) (r : Nat) : List String :=
  (h.cells.get? r).getD []

/-- `make` + `copy`: allocate a fresh slice holding the given contents. -/
def SliceHeap.allocCopy (h : SliceHeap) (v : List String) : SliceHeap × Nat :=
  (⟨h.cells ++ [v]⟩, h.cells.length)

/-- Write element `i` of slice `r` (a `names[i] = v` mutation by the
caller of `CommandNames`). -/
def SliceHeap.writeAt (h : SliceHeap) (r i : Nat) (v : String) : SliceHeap :=
  ⟨h.cells.set r ((h.cells.get? r).getD [] |>.set i v)⟩

/-- `MultiCommandApp.CommandNames` (lieut.go lines 210–216) on the heap:
allocate a fresh slice, copy the registry's `commandNames` into it, and
return it. -/
def commandNamesHeap (h : SliceHeap) (namesRef : Nat) : SliceHeap × Nat :=
  h.allocCopy (h.read namesRef)

/-! ## Helper lemmas about `Run` -/

theorem lookupGo_isEmpty_false {α : Type} {m : List (String × α)} {k : String} {v : α}
    (h : lookupGo m k = some v) : m.isEmpty = false := by
  cases m with
  | nil => simp [lookupGo] at h
  | cons p ps => rfl

/-- A `Run` whose first token resolves a registered command continues as
`runResolved`. -/
theorem multiRun_resolved (env : RunEnv) (a : MultiApp) (commandName : String)
    (rest : List String) (cmd : RunCommand)
    (h : lookupGo a.commands commandName = some cmd) :
    a.run env (commandName :: rest) = a.runResolved env commandName cmd rest := by
  unfold MultiApp.run
  simp [lookupGo_isEmpty_false h, h]

/-- A resolved command whose parse succeeds without help/version requests
reaches `initialize`; a non-nil init error goes to `handleError` with the
command-scoped help printer. -/
theorem runResolved_init (env : RunEnv) (a : MultiApp) (commandName : String)
    (cmd : RunCommand) (rest : List String) (ierr : GoError)
    (hp : cmd.flags.parseErr rest = none)
    (hh : cmd.flags.helpAfter rest = false)
    (hv : cmd.flags.versionAfter rest = false)
    (hi : a.onInit = some ierr) :
    a.runResolved env commandName cmd rest =
      ⟨(handleError (a.printHelp env commandName) ierr).1, "",
       (handleError (a.printHelp env commandName) ierr).2,
       [.resolveCommand, .parseArgs, .runInit]⟩ := by
  unfold MultiApp.runResolved
  rw [hp]
  simp [hh, hv, hi]

/-- A resolved command whose parse succeeds without help/version requests
and whose init is clean reaches `execute`. -/
theorem runResolved_exec (env : RunEnv) (a : MultiApp) (commandName : String)
    (cmd : RunCommand) (rest : List String)
    (hp : cmd.flags.parseErr rest = none)
    (hh : cmd.flags.helpAfter rest = false)
    (hv : cmd.flags.versionAfter rest = false)
    (hi : a.onInit = none) :
    a.runResolved env commandName cmd rest =
      ⟨(executeStep cmd.exec (a.printHelp env commandName) (cmd.flags.argsAfter rest)).1, "",
       (executeStep cmd.exec (a.printHelp env commandName) (cmd.flags.argsAfter rest)).2,
       [.resolveCommand, .parseArgs, .runInit, .runExec]⟩ := by
  unfold MultiApp.runResolved
  rw [hp]
  simp [hh, hv, hi]

/-- A single-command `Run` with explicit arguments whose parse succeeds
without help/version requests reaches `initialize`. -/
theorem singleRun_init (env : RunEnv) (s : SingleApp) (arguments : List String)
    (ierr : GoError)
    (hne : ¬ arguments = [])
    (hp : s.flags.parseErr arguments = none)
    (hh : s.flags.helpAfter arguments = false)
    (hv : s.flags.versionAfter arguments = false)
    (hi : s.onInit = some ierr) :
    s.run env arguments =
      ⟨(handleError (s.printHelp env) ierr).1, "",
       (handleError (s.printHelp env) ierr).2, [.parseArgs, .runInit]⟩ := by
  unfold SingleApp.run
  simp only [if_neg hne]
  rw [hp]
  simp [hh, hv, hi]

/-- A single-command `Run` with explicit arguments whose parse succeeds
without help/version requests and whose init is clean reaches `execute`. -/
theorem singleRun_exec (env : RunEnv) (s : SingleApp) (arguments : List String)
    (hne : ¬ arguments = [])
    (hp : s.flags.parseErr arguments = none)
    (hh : s.flags.helpAfter arguments = false)
    (hv : s.flags.versionAfter arguments = false)
    (hi : s.onInit = none) :
    s.run env arguments =
      ⟨(executeStep s.exec (s.printHelp env) (s.flags.argsAfter arguments)).1, "",
       (executeStep s.exec (s.printHelp env) (s.flags.argsAfter arguments)).2,
       [.parseArgs, .runInit, .runExec]⟩ := by
  unfold SingleApp.run
  simp only [if_neg hne]
  rw [hp]
  simp [hh, hv, hi]

/-- A status-code signal anywhere in the chain decides `handleError`'s
exit code, whether or not the help-requested signal is present. -/
theorem handleError_status (helpText : String) (err : GoError) (n : Int)
    (h : asStatusCode err = some n) : (handleError helpText err).1 = n := by
  unfold handleError
  cases hh : isHelpRequested err <;> simp [hh, h]

/-- A non-canceled executor error goes through `handleError`. -/
theorem executeStep_err (exec : List String → Option GoError) (helpText : String)
    (args : List String) (err : GoError)
    (he : exec args = some err) (hc : isCanceled err = false) :
    executeStep exec helpText args = handleError helpText err := by
  unfold executeStep
  rw [he]
  simp [hc]

/-- A canceled executor error is swallowed. -/
theorem executeStep_canceled (exec : List String → Option GoError) (helpText : String)
    (args : List String) (err : GoError)
    (he : exec args = some err) (hc : isCanceled err = true) :
    executeStep exec helpText args = (0, "") := by
  unfold executeStep
  rw [he]
  simp [hc]

/-! ## Concrete fixtures for witnesses and counterexamples -/

/-- A flags collaborator that parses anything cleanly, keeps the arguments
as positionals, requests nothing, and prints no defaults. -/
def quietFlags : FlagsRT :=
  ⟨fun _ => none, fun args => args, fun _ => false, fun _ => false, ""⟩

/-- A fixed process environment with an empty `os.Args[1:]`. -/
def testEnv : RunEnv := ⟨"linux", "amd64", []⟩

/-- App metadata named "X". -/
def testInfoX : AppInfo := ⟨"X", "A test app", "<command> [arguments ...]", "1.0"⟩

/-- A command whose executor returns `ErrWithStatusCode(context.Canceled, 217)`. -/
def cmdCancel217 : RunCommand :=
  ⟨⟨"boom", "Explodes", "[arguments ...]"⟩,
   fun _ => some (.statusCodeError .contextCanceled 217), quietFlags⟩

/-- A multi-command app registering only `cmdCancel217`. -/
def appCancel217 : MultiApp :=
  ⟨testInfoX, quietFlags, [("boom", cmdCancel217)], ["boom"], none⟩

/-! ## C1 -/

/-- C1 counterexample: the executor of `appCancel217` returns an error
whose wrap chain carries the status-code signal 217 (namely
`ErrWithStatusCode(context.Canceled, 217)`), yet `Run` returns exit code
0, not 217: `execute` swallows every executor error matching
`context.Canceled` before the status-code mapping is consulted. -/
theorem claimC1_counterexample :
    asStatusCode (GoError.statusCodeError .contextCanceled 217) = some 217 ∧
    (appCancel217.run testEnv ["boom"]).exit = 0 := by
  exact ⟨rfl, rfl⟩

/-- C1 (amended): for every error returned by the init function, and every
error returned by the command executor that does not match
`context.Canceled`, whose wrap chain carries a status-code signal with
code N, `Run` returns exit code N — in particular for either nesting
order of the status-code and help-requested signals — for multi-command
and single-command apps alike. -/
theorem claimC1 :
    (∀ (env : RunEnv) (a : MultiApp) (commandName : String) (rest : List String)
        (cmd : RunCommand) (ierr : GoError) (n : Int),
        lookupGo a.commands commandName = some cmd →
        cmd.flags.parseErr rest = none →
        cmd.flags.helpAfter rest = false →
        cmd.flags.versionAfter rest = false →
        a.onInit = some ierr →
        asStatusCode ierr = some n →
        (a.run env (commandName :: rest)).exit = n) ∧
    (∀ (env : RunEnv) (a : MultiApp) (commandName : String) (rest : List String)
        (cmd : RunCommand) (xerr : GoError) (n : Int),
        lookupGo a.commands commandName = some cmd →
        cmd.flags.parseErr rest = none →
        cmd.flags.helpAfter rest = false →
        cmd.flags.versionAfter rest = false →
        a.onInit = none →
        cmd.exec (cmd.flags.argsAfter rest) = some xerr →
        isCanceled xerr = false →
        asStatusCode xerr = some n →
        (a.run env (commandName :: rest)).exit = n) ∧
    (∀ (env : RunEnv) (s : SingleApp) (arguments : List String)
        (ierr : GoError) (n : Int),
        ¬ arguments = [] →
        s.flags.parseErr arguments = none →
        s.flags.helpAfter arguments = false →
        s.flags.versionAfter arguments = false →
        s.onInit = some ierr →
        asStatusCode ierr = some n →
        (s.run env arguments).exit = n) ∧
    (∀ (env : RunEnv) (s : SingleApp) (arguments : List String)
        (xerr : GoError) (n : Int),
        ¬ arguments = [] →
        s.flags.parseErr arguments = none →
        s.flags.helpAfter arguments = false →
        s.flags.versionAfter arguments = false →
        s.onInit = none →
        s.exec (s.flags.argsAfter arguments) = some xerr →
        isCanceled xerr = false →
        asStatusCode xerr = some n →
        (s.run env arguments).exit = n) := by
  refine ⟨?_, ?_, ?_, ?_⟩
  · intro env a commandName rest cmd ierr n hl hp hh hv hi hs
    rw [multiRun_resolved env a commandName rest cmd hl,
      runResolved_init env a commandName cmd rest ierr hp hh hv hi]
    exact handleError_status _ ierr n hs
  · intro env a commandName rest cmd xerr n hl hp hh hv hi he hc hs
    rw [multiRun_resolved env a commandName rest cmd hl,
      runResolved_exec env a commandName cmd rest hp hh hv hi]
    simp only [executeStep_err _ _ _ xerr he hc]
    exact handleError_status _ xerr n hs
  · intro env s arguments ierr n hne hp hh hv hi hs
    rw [singleRun_init env s arguments ierr hne hp hh hv hi]
    exact handleError_status _ ierr n hs
  · intro env s arguments xerr n hne hp hh hv hi he hc hs
    rw [singleRun_exec env s arguments hne hp hh hv hi]
    simp only [executeStep_err _ _ _ xerr he hc]
    exact handleError_status _ xerr n hs

/-- A command whose executor returns
`ErrWithHelpRequested(ErrWithStatusCode(errors.New "bad", 217))`. -/
def cmdHelp217 : RunCommand :=
  ⟨⟨"frob", "Frobs", "[arguments ...]"⟩,
   fun _ => some (.helpRequestedError (.statusCodeError (.mk "bad") 217)), quietFlags⟩

/-- A multi-command app registering only `cmdHelp217`, with an init error
`ErrWithStatusCode(ErrWithHelpRequested(errors.New "bad"), 217)` ready to
be installed. -/
def appHelp217 : MultiApp :=
  ⟨testInfoX, quietFlags, [("frob", cmdHelp217)], ["frob"], none⟩

/-- Like `appHelp217` but with an init function returning
`ErrWithStatusCode(ErrWithHelpRequested(errors.New "bad"), 217)`. -/
def appHelp217Init : MultiApp :=
  ⟨testInfoX, quietFlags, [("frob", cmdHelp217)], ["frob"],
   some (.statusCodeError (.helpRequestedError (.mk "bad")) 217)⟩

/-- C1 witness: the amended claim applied at concrete inputs, covering both
nesting orders of the two signals. -/
theorem claimC1_witness :
    (appHelp217.run testEnv ["frob"]).exit = 217 ∧
    (appHelp217Init.run testEnv ["frob"]).exit = 217 := by
  constructor
  · exact claimC1.2.1 testEnv appHelp217 "frob" [] cmdHelp217
      (.helpRequestedError (.statusCodeError (.mk "bad") 217)) 217
      rfl rfl rfl rfl rfl rfl rfl rfl
  · exact claimC1.1 testEnv appHelp217Init "frob" [] cmdHelp217
      (.statusCodeError (.helpRequestedError (.mk "bad")) 217) 217
      rfl rfl rfl rfl rfl rfl

/-! ## C9 -/

/-- C9: for every command executor whose returned error matches
`context.Canceled`, `Run` returns exit code 0 and reports nothing, while
any other non-nil executor error goes through the `handleError`
error-to-exit-code mapping — for multi-command and single-command apps. -/
theorem claimC9 :
    (∀ (env : RunEnv) (a : MultiApp) (commandName : String) (rest : List String)
        (cmd : RunCommand) (xerr : GoError),
        lookupGo a.commands commandName = some cmd →
        cmd.flags.parseErr rest = none →
        cmd.flags.helpAfter rest = false →
        cmd.flags.versionAfter rest = false →
        a.onInit = none →
        cmd.exec (cmd.flags.argsAfter rest) = some xerr →
        ((isCanceled xerr = true →
            a.run env (commandName :: rest) =
              ⟨0, "", "", [.resolveCommand, .parseArgs, .runInit, .runExec]⟩) ∧
         (isCanceled xerr = false →
            a.run env (commandName :: rest) =
              ⟨(handleError (a.printHelp env commandName) xerr).1, "",
               (handleError (a.printHelp env commandName) xerr).2,
               [.resolveCommand, .parseArgs, .runInit, .runExec]⟩))) ∧
    (∀ (env : RunEnv) (s : SingleApp) (arguments : List String) (xerr : GoError),
        ¬ arguments = [] →
        s.flags.parseErr arguments = none →
        s.flags.helpAfter arguments = false →
        s.flags.versionAfter arguments = false →
        s.onInit = none →
        s.exec (s.flags.argsAfter arguments) = some xerr →
        ((isCanceled xerr = true →
            s.run env arguments = ⟨0, "", "", [.parseArgs, .runInit, .runExec]⟩) ∧
         (isCanceled xerr = false →
            s.run env arguments =
              ⟨(handleError (s.printHelp env) xerr).1, "",
               (handleError (s.printHelp env) xerr).2,
               [.parseArgs, .runInit, .runExec]⟩))) := by
  constructor
  · intro env a commandName rest cmd xerr hl hp hh hv hi he
    rw [multiRun_resolved env a commandName rest cmd hl,
      runResolved_exec env a commandName cmd rest hp hh hv hi]
    constructor
    · intro hc
      simp [executeStep_canceled _ _ _ xerr he hc]
    · intro hc
      simp [executeStep_err _ _ _ xerr he hc]
  · intro env s arguments xerr hne hp hh hv hi he
    rw [singleRun_exec env s arguments hne hp hh hv hi]
    constructor
    · intro hc
      simp [executeStep_canceled _ _ _ xerr he hc]
    · intro hc
      simp [executeStep_err _ _ _ xerr he hc]

/-- A command whose executor returns bare `context.Canceled`. -/
def cmdCanceled : RunCommand :=
  ⟨⟨"halt", "Halts", "[arguments ...]"⟩, fun _ => some .contextCanceled, quietFlags⟩

/-- A multi-command app registering only `cmdCanceled`. -/
def appCanceled : MultiApp :=
  ⟨testInfoX, quietFlags, [("halt", cmdCanceled)], ["halt"], none⟩

/-- C9 witness: a canceled execution of a concrete app exits 0 with no
output. -/
theorem claimC9_witness :
    appCanceled.run testEnv ["halt"] =
      ⟨0, "", "", [.resolveCommand, .parseArgs, .runInit, .runExec]⟩ := by
  exact (claimC9.1 testEnv appCanceled "halt" [] cmdCanceled .contextCanceled
    rfl rfl rfl rfl rfl rfl).1 rfl

/-! ## C2 -/

/-- A help-requested error with a suppressed (empty) message and no
status-code signal maps to exit 2 and prints exactly the scope's help:
no `Error:` line and no spacer line. -/
theorem handleError_help_empty (helpText : String) (err : GoError)
    (hh : isHelpRequested err = true) (hm : err.errorMsg = "")
    (hs : asStatusCode err = none) :
    handleError helpText err = (2, helpText) := by
  unfold handleError
  simp [hh, hm, hs]

/-- A command whose executor returns `ErrWithHelpRequested` over a custom
error whose `Error()` is the empty string and whose `Unwrap` yields
`context.Canceled`. -/
def cmdHelpCanceled : RunCommand :=
  ⟨⟨"quiet", "Quiets", "[arguments ...]"⟩,
   fun _ => some (.helpRequestedError (.wrap "" .contextCanceled)), quietFlags⟩

/-- A multi-command app registering only `cmdHelpCanceled`. -/
def appHelpCanceled : MultiApp :=
  ⟨testInfoX, quietFlags, [("quiet", cmdHelpCanceled)], ["quiet"], none⟩

/-- C2 counterexample: the executor of `appHelpCanceled` returns an error
that carries the help-requested signal, has an empty `Error()` message
and carries no status-code signal, yet `Run` returns exit code 0 and
prints nothing — because the custom leaf unwraps to `context.Canceled`,
`execute` swallows the error as cancellation before `handleError` could
print the help or return the usage-error exit code 2. -/
theorem claimC2_counterexample :
    isHelpRequested (GoError.helpRequestedError (.wrap "" .contextCanceled)) = true ∧
    (GoError.helpRequestedError (.wrap "" .contextCanceled)).errorMsg = "" ∧
    asStatusCode (GoError.helpRequestedError (.wrap "" .contextCanceled)) = none ∧
    appHelpCanceled.run testEnv ["quiet"] =
      ⟨0, "", "", [.resolveCommand, .parseArgs, .runInit, .runExec]⟩ := by
  exact ⟨rfl, rfl, rfl, rfl⟩

/-- C2 (amended): for every init error, and every executor error that does
not match `context.Canceled`, which carries the help-requested signal,
has an empty `Error()` message, and carries no status-code signal, `Run`
writes exactly the scope-appropriate help text to the error output (so
no `Error:` line and no leading blank line) and returns the usage-error
exit code 2 — for multi-command apps (command-scoped help) and
single-command apps (app-scoped help). -/
theorem claimC2 :
    (∀ (env : RunEnv) (a : MultiApp) (commandName : String) (rest : List String)
        (cmd : RunCommand) (ierr : GoError),
        lookupGo a.commands commandName = some cmd →
        cmd.flags.parseErr rest = none →
        cmd.flags.helpAfter rest = false →
        cmd.flags.versionAfter rest = false →
        a.onInit = some ierr →
        isHelpRequested ierr = true →
        ierr.errorMsg = "" →
        asStatusCode ierr = none →
        a.run env (commandName :: rest) =
          ⟨2, "", a.printHelp env commandName,
           [.resolveCommand, .parseArgs, .runInit]⟩) ∧
    (∀ (env : RunEnv) (a : MultiApp) (commandName : String) (rest : List String)
        (cmd : RunCommand) (xerr : GoError),
        lookupGo a.commands commandName = some cmd →
        cmd.flags.parseErr rest = none →
        cmd.flags.helpAfter rest = false →
        cmd.flags.versionAfter rest = false →
        a.onInit = none →
        cmd.exec (cmd.flags.argsAfter rest) = some xerr →
        isCanceled xerr = false →
        isHelpRequested xerr = true →
        xerr.errorMsg = "" →
        asStatusCode xerr = none →
        a.run env (commandName :: rest) =
          ⟨2, "", a.printHelp env commandName,
           [.resolveCommand, .parseArgs, .runInit, .runExec]⟩) ∧
    (∀ (env : RunEnv) (s : SingleApp) (arguments : List String) (ierr : GoError),
        ¬ arguments = [] →
        s.flags.parseErr arguments = none →
        s.flags.helpAfter arguments = false →
        s.flags.versionAfter arguments = false →
        s.onInit = some ierr →
        isHelpRequested ierr = true →
        ierr.errorMsg = "" →
        asStatusCode ierr = none →
        s.run env arguments = ⟨2, "", s.printHelp env, [.parseArgs, .runInit]⟩) ∧
    (∀ (env : RunEnv) (s : SingleApp) (arguments : List String) (xerr : GoError),
        ¬ arguments = [] →
        s.flags.parseErr arguments = none →
        s.flags.helpAfter arguments = false →
        s.flags.versionAfter arguments = false →
        s.onInit = none →
        s.exec (s.flags.argsAfter arguments) = some xerr →
        isCanceled xerr = false →
        isHelpRequested xerr = true →
        xerr.errorMsg = "" →
        asStatusCode xerr = none →
        s.run env arguments =
          ⟨2, "", s.printHelp env, [.parseArgs, .runInit, .runExec]⟩) := by
  refine ⟨?_, ?_, ?_, ?_⟩
  · intro env a commandName rest cmd ierr hl hp hh hv hi hhelp hm hs
    rw [multiRun_resolved env a commandName rest cmd hl,
      runResolved_init env a commandName cmd rest ierr hp hh hv hi,
      handleError_help_empty _ ierr hhelp hm hs]
  · intro env a commandName rest cmd xerr hl hp hh hv hi he hc hhelp hm hs
    rw [multiRun_resolved env a commandName rest cmd hl,
      runResolved_exec env a commandName cmd rest hp hh hv hi,
      executeStep_err _ _ _ xerr he hc,
      handleError_help_empty _ xerr hhelp hm hs]
  · intro env s arguments ierr hne hp hh hv hi hhelp hm hs
    rw [singleRun_init env s arguments ierr hne hp hh hv hi,
      handleError_help_empty _ ierr hhelp hm hs]
  · intro env s arguments xerr hne hp hh hv hi he hc hhelp hm hs
    rw [singleRun_exec env s arguments hne hp hh hv hi,
      executeStep_err _ _ _ xerr he hc,
      handleError_help_empty _ xerr hhelp hm hs]

/-- A command whose executor returns
`ErrWithHelpRequested(errors.New "")`. -/
def cmdHelpEmpty : RunCommand :=
  ⟨⟨"show", "Shows", "[arguments ...]"⟩,
   fun _ => some (.helpRequestedError (.mk "")), quietFlags⟩

/-- A multi-command app registering only `cmdHelpEmpty`. -/
def appHelpEmpty : MultiApp :=
  ⟨testInfoX, quietFlags, [("show", cmdHelpEmpty)], ["show"], none⟩

/-- C2 witness: the amended claim applied at a concrete app whose executor
returns a help-requested error wrapping an empty message. -/
theorem claimC2_witness :
    appHelpEmpty.run testEnv ["show"] =
      ⟨2, "", appHelpEmpty.printHelp testEnv "show",
       [.resolveCommand, .parseArgs, .runInit, .runExec]⟩ := by
  exact claimC2.2.1 testEnv appHelpEmpty "show" [] cmdHelpEmpty
    (.helpRequestedError (.mk "")) rfl rfl rfl rfl rfl rfl rfl rfl rfl rfl

/-! ## C3 -/

/-- A multi-command app named "X" with an empty registry. -/
def appNoCommandsX : MultiApp := ⟨testInfoX, quietFlags, [], [], none⟩

/-- A command registered under the empty name. -/
def cmdEmptyName : RunCommand :=
  ⟨⟨"", "", "[arguments ...]"⟩, fun _ => none, quietFlags⟩

/-- A multi-command app named "X" whose only command is registered under
the empty name. -/
def appEmptyNameX : MultiApp :=
  ⟨testInfoX, quietFlags, [("", cmdEmptyName)], [""], none⟩

/-- C3 counterexample: with no command registered at all, `Run(["nope"])`
returns exit code 2 (top-level help), not 1; and with a command
registered under the empty name, the unknown-command report renders the
empty-named command's usage (`Usage: X  [arguments ...]` with the
doubled space and a `Run 'X  --help'` hint), not the claimed global
usage line. -/
theorem claimC3_counterexample :
    (appNoCommandsX.run testEnv ["nope"]).exit = 2 ∧
    ¬ (appEmptyNameX.run testEnv ["nope"]).errText =
        "Error: unknown command 'nope'\n\nUsage: X " ++ testInfoX.usage ++
          "\n\nRun 'X --help' for usage.\n" := by
  constructor
  · rfl
  · decide

/-- C3 (amended): for a MultiCommandApp named "X" with at least one
registered command and none registered under the name "nope" or under
the empty name, `Run(ctx, ["nope"])` returns exit code 1 and writes
exactly the `Error: unknown command 'nope'` line, a blank line, the
global usage line, a blank line, and the `Run 'X --help' for usage.`
hint to the error stream. -/
theorem claimC3 (env : RunEnv) (a : MultiApp)
    (hname : a.info.name = "X")
    (hne : ¬ a.commands = [])
    (hnope : lookupGo a.commands "nope" = none)
    (hempty : lookupGo a.commands "" = none) :
    a.run env ["nope"] =
      ⟨1, "",
       "Error: unknown command 'nope'\n\nUsage: X " ++ a.info.usage ++
         "\n\nRun 'X --help' for usage.\n",
       [.resolveCommand]⟩ := by
  have hie : a.commands.isEmpty = false := by
    cases hc : a.commands with
    | nil => exact absurd hc hne
    | cons p ps => rfl
  unfold MultiApp.run
  simp only [List.cons_ne_self, if_neg, hie, List.isEmpty_cons, Bool.or_self,
    Bool.false_eq_true, reduceIte, hnope]
  rw [if_neg (by decide)]
  unfold MultiApp.printUnknownText MultiApp.printUsageError MultiApp.printUsage
    MultiApp.fullCommandName appPrintUsage
  rw [hempty, hname]
  simp only [RunResult.mk.injEq, true_and, and_true]
  rw [if_neg (by decide)]
  apply String.ext
  simp [String.data_append, List.append_assoc]

/-- C3 witness: the amended claim applied to a concrete app named "X" with
one command ("halt") and no "nope" or empty-named command. -/
theorem claimC3_witness :
    appCanceled.run testEnv ["nope"] =
      ⟨1, "",
       "Error: unknown command 'nope'\n\nUsage: X " ++ appCanceled.info.usage ++
         "\n\nRun 'X --help' for usage.\n",
       [.resolveCommand]⟩ := by
  exact claimC3 testEnv appCanceled rfl (fun h => List.noConfusion h) rfl rfl

/-! ## C4 -/

/-- C4 (amended): a multi-command `Run` prints the full top-level help to
the error stream and returns the usage-error exit code 2, taking no
resolve, parse, init or execute step, whenever the caller passes no
arguments and the process argument tail is also empty, or whenever no
command is registered (for any argument list).  (With caller arguments
empty but `os.Args[1:]` non-empty, `Run` dispatches on the process
arguments instead.) -/
theorem claimC4 (env : RunEnv) (a : MultiApp) (arguments : List String)
    (h : (arguments = [] ∧ env.osArgs = []) ∨ a.commands = []) :
    a.run env arguments = ⟨2, "", a.printHelp env "", []⟩ := by
  unfold MultiApp.run
  rcases h with ⟨ha, ho⟩ | hc
  · subst ha
    simp [ho]
  · simp [hc]

/-- A process environment whose `os.Args[1:]` is `["zzz"]`. -/
def envBoom : RunEnv := ⟨"linux", "amd64", ["zzz"]⟩

/-- C4 counterexample: calling `Run` with an empty argument list on an app
with one registered command does not print help/exit 2 when the process
argument tail is non-empty — the fallback to `os.Args[1:]` resolves
"zzz" as an unknown command and exits 1. -/
theorem claimC4_counterexample :
    (appCanceled.run envBoom []).exit = 1 ∧
    (appCanceled.run envBoom []).events = [.resolveCommand] := by
  exact ⟨rfl, rfl⟩

/-- C4 witness: the amended claim applied to a concrete app, for both the
empty-arguments case and the empty-registry case. -/
theorem claimC4_witness :
    appCanceled.run testEnv [] = ⟨2, "", appCanceled.printHelp testEnv "", []⟩ ∧
    appNoCommandsX.run envBoom ["whatever"] =
      ⟨2, "", appNoCommandsX.printHelp envBoom "", []⟩ := by
  exact ⟨claimC4 testEnv appCanceled [] (Or.inl ⟨rfl, rfl⟩),
    claimC4 envBoom appNoCommandsX ["whatever"] (Or.inr rfl)⟩

/-! ## Helper lemmas about the registry -/

theorem backfillUsage_name (info : CommandInfo) :
    (backfillUsage info).name = info.name := by
  unfold backfillUsage
  split <;> rfl

theorem lookupGo_mem {α : Type} {m : List (String × α)} {k : String} {v : α}
    (h : lookupGo m k = some v) : (k, v) ∈ m := by
  induction m with
  | nil => simp [lookupGo] at h
  | cons p ps ih =>
      cases p with
      | mk k' v' =>
          unfold lookupGo at h
          by_cases hk : k' = k
          · rw [if_pos hk] at h
            cases h
            subst hk
            exact List.mem_cons_self _ _
          · rw [if_neg hk] at h
            exact List.mem_cons_of_mem _ (ih h)

theorem lookupGo_upsert_self {α : Type} (m : List (String × α)) (k : String) (v : α) :
    lookupGo (upsertGo m k v) k = some v := by
  induction m with
  | nil => simp [upsertGo, lookupGo]
  | cons p ps ih =>
      cases p with
      | mk k' w =>
          unfold upsertGo
          by_cases hk : k' = k
          · rw [if_pos hk]
            unfold lookupGo
            rw [if_pos hk]
          · rw [if_neg hk]
            unfold lookupGo
            rw [if_neg hk]
            exact ih

theorem lookupGo_upsert_other {α : Type} (m : List (String × α)) (k n : String) (v : α)
    (h : ¬ n = k) : lookupGo (upsertGo m k v) n = lookupGo m n := by
  induction m with
  | nil =>
      simp only [upsertGo, lookupGo]
      rw [if_neg (fun hk => h hk.symm)]
  | cons p ps ih =>
      cases p with
      | mk k' w =>
          unfold upsertGo
          by_cases hk : k' = k
          · rw [if_pos hk]
            unfold lookupGo
            by_cases hn : k' = n
            · exact absurd (hn.symm.trans hk) h
            · rw [if_neg hn, if_neg hn]
          · rw [if_neg hk]
            unfold lookupGo
            by_cases hn : k' = n
            · rw [if_pos hn, if_pos hn]
            · rw [if_neg hn, if_neg hn]
              exact ih

/-- The flags object that a successful `SetCommand` stores for the command:
the supplied object (or a fresh default one) after `setupFlagSet`. -/
def storedFlags (a : RegApp) (flags : Option FlagsObj) : FlagsObj :=
  setupFlagSet a.globalFlags
    (match flags with
     | some f => f
     | none => createDefaultFlags a.nextId)
    false

/-- A rejected `SetCommand` leaves the registry untouched. -/
theorem setCommandReg_err_state (deepEq : FlagsObj → FlagsObj → Bool) (a : RegApp)
    (info : CommandInfo) (execId : Nat) (flags : Option FlagsObj) (msg : String)
    (a' : RegApp)
    (h : setCommandReg deepEq a info execId flags = (some msg, a')) : a' = a := by
  unfold setCommandReg at h
  by_cases hu : isUniqueFlagSet deepEq a flags = true
  · rw [hu] at h
    cases flags <;> simp at h
  · rw [Bool.not_eq_true] at hu
    rw [hu] at h
    simp at h
    exact h.2.symm

/-- Field-wise characterization of a successful `SetCommand`: the command
map is upserted with the backfilled info, the executor, and the
`setupFlagSet`-processed flags; the name order gains the name only when
the name was not yet registered; nothing else changes. -/
theorem setCommandReg_ok_state (deepEq : FlagsObj → FlagsObj → Bool) (a : RegApp)
    (info : CommandInfo) (execId : Nat) (flags : Option FlagsObj) (a' : RegApp)
    (h : setCommandReg deepEq a info execId flags = (none, a')) :
    a'.commands =
        upsertGo a.commands info.name ⟨backfillUsage info, execId, storedFlags a flags⟩ ∧
    a'.commandNames =
        (if (lookupGo a.commands info.name).isSome then a.commandNames
         else a.commandNames ++ [info.name]) ∧
    a'.globalFlags = a.globalFlags ∧
    a'.info = a.info := by
  unfold setCommandReg at h
  by_cases hu : isUniqueFlagSet deepEq a flags = true
  · rw [hu] at h
    cases flags with
    | none =>
        simp only [Bool.not_true, Bool.false_eq_true, if_false, reduceIte] at h
        injection h with h1 h2
        rw [← h2, backfillUsage_name]
        exact ⟨rfl, rfl, rfl, rfl⟩
    | some f =>
        simp only [Bool.not_true, Bool.false_eq_true, if_false, reduceIte] at h
        injection h with h1 h2
        rw [← h2, backfillUsage_name]
        exact ⟨rfl, rfl, rfl, rfl⟩
  · rw [Bool.not_eq_true] at hu
    rw [hu] at h
    simp only [Bool.not_false, if_true, reduceIte] at h
    injection h with h1 h2
    exact Option.noConfusion h1

/-- A candidate deeply equal to some registered command's flags is not
unique. -/
theorem isUniqueFlagSet_false_of_cmd (deepEq : FlagsObj → FlagsObj → Bool)
    (a : RegApp) (f : FlagsObj) (p : String × RegCmd)
    (hp : p ∈ a.commands) (hd : deepEq f p.2.flags = true) :
    isUniqueFlagSet deepEq a (some f) = false := by
  simp only [isUniqueFlagSet]
  by_cases hg : deepEq f a.globalFlags = true
  · rw [if_pos hg]
  · rw [if_neg hg, if_pos (List.any_eq_true.mpr ⟨p, hp, hd⟩)]

/-! ## C6 -/

/-- C6: calling `SetCommand` with a flags object whose identity already
belongs to the global scope or to any registered command returns the
duplicate-flags error and leaves the command collection (indeed the whole
registry state) unchanged.  `deepEq` abstracts `reflect.DeepEqual`; the
only assumption is that interface values holding the same underlying
object are deeply equal. -/
theorem claimC6 (deepEq : FlagsObj → FlagsObj → Bool) (a : RegApp)
    (info : CommandInfo) (execId : Nat) (f : FlagsObj)
    (hDeep : ∀ x y : FlagsObj, x.fid = y.fid → deepEq x y = true)
    (h : f.fid = a.globalFlags.fid ∨ ∃ p ∈ a.commands, f.fid = p.2.flags.fid) :
    setCommandReg deepEq a info execId (some f) =
      (some "provided flags are duplicate", a) := by
  have hu : isUniqueFlagSet deepEq a (some f) = false := by
    rcases h with hg | ⟨p, hp, hfid⟩
    · simp only [isUniqueFlagSet]
      rw [if_pos (hDeep f a.globalFlags hg)]
    · exact isUniqueFlagSet_false_of_cmd deepEq a f p hp (hDeep f p.2.flags hfid)
  unfold setCommandReg
  rw [hu]
  rfl

/-- A second flags object with a fresh identity. -/
def flagsObjA : FlagsObj := ⟨7, [⟨"verbose", "&v", "Verbose output"⟩], true, false, true, true⟩

/-- A global flags object fixture. -/
def flagsObjGlobal : FlagsObj := ⟨3, [], true, false, true, true⟩

/-- A registry fixture over `flagsObjGlobal` with one command "a" holding
`flagsObjA`. -/
def regAppFix : RegApp :=
  ⟨testInfoX, flagsObjGlobal,
   [("a", ⟨⟨"a", "A", "[arguments ...]"⟩, 0, flagsObjA⟩)], ["a"], 8⟩

/-- Identity-based `DeepEqual` on the fixtures. -/
def fidEq (x y : FlagsObj) : Bool := x.fid == y.fid

/-- C6 witness: registering the global flags object (identity 3) or the
command "a"'s object (identity 7) under a new name "b" is rejected. -/
theorem claimC6_witness :
    setCommandReg fidEq regAppFix ⟨"b", "B", ""⟩ 1 (some flagsObjGlobal) =
      (some "provided flags are duplicate", regAppFix) ∧
    setCommandReg fidEq regAppFix ⟨"b", "B", ""⟩ 1 (some flagsObjA) =
      (some "provided flags are duplicate", regAppFix) := by
  constructor
  · exact claimC6 fidEq regAppFix ⟨"b", "B", ""⟩ 1 flagsObjGlobal
      (fun x y hxy => by simp [fidEq, hxy]) (Or.inl rfl)
  · exact claimC6 fidEq regAppFix ⟨"b", "B", ""⟩ 1 flagsObjA
      (fun x y hxy => by simp [fidEq, hxy])
      (Or.inr ⟨("a", ⟨⟨"a", "A", "[arguments ...]"⟩, 0, flagsObjA⟩), by decide, rfl⟩)

/-! ## C10 -/

/-- C10: re-registering name N while passing the very flags object already
stored for N is rejected with the duplicate-flags error and leaves the
registry unchanged; consequently an in-place update of an existing
command can only succeed with a different (or nil) flags object. -/
theorem claimC10 :
    (∀ (deepEq : FlagsObj → FlagsObj → Bool) (a : RegApp) (info : CommandInfo)
        (execId : Nat) (f : FlagsObj) (c : RegCmd),
        (∀ x y : FlagsObj, x.fid = y.fid → deepEq x y = true) →
        lookupGo a.commands info.name = some c →
        f.fid = c.flags.fid →
        setCommandReg deepEq a info execId (some f) =
          (some "provided flags are duplicate", a)) ∧
    (∀ (deepEq : FlagsObj → FlagsObj → Bool) (a : RegApp) (info : CommandInfo)
        (execId : Nat) (flags : Option FlagsObj) (c : RegCmd) (a' : RegApp),
        (∀ x y : FlagsObj, x.fid = y.fid → deepEq x y = true) →
        lookupGo a.commands info.name = some c →
        setCommandReg deepEq a info execId flags = (none, a') →
        flags = none ∨ ∃ g, flags = some g ∧ ¬ g.fid = c.flags.fid) := by
  constructor
  · intro deepEq a info execId f c hDeep hl hfid
    have hu := isUniqueFlagSet_false_of_cmd deepEq a f (info.name, c)
      (lookupGo_mem hl) (hDeep f c.flags hfid)
    unfold setCommandReg
    rw [hu]
    rfl
  · intro deepEq a info execId flags c a' hDeep hl hok
    cases flags with
    | none => exact Or.inl rfl
    | some g =>
        refine Or.inr ⟨g, rfl, ?_⟩
        intro hfid
        have hu := isUniqueFlagSet_false_of_cmd deepEq a g (info.name, c)
          (lookupGo_mem hl) (hDeep g c.flags hfid)
        unfold setCommandReg at hok
        rw [hu] at hok
        simp at hok

/-- C10 witness: re-registering "a" on `regAppFix` with the stored object
`flagsObjA` is rejected, while re-registering with nil succeeds. -/
theorem claimC10_witness :
    setCommandReg fidEq regAppFix ⟨"a", "A2", ""⟩ 2 (some flagsObjA) =
      (some "provided flags are duplicate", regAppFix) ∧
    (setCommandReg fidEq regAppFix ⟨"a", "A2", ""⟩ 2 none).1 = none := by
  constructor
  · exact claimC10.1 fidEq regAppFix ⟨"a", "A2", ""⟩ 2 flagsObjA
      ⟨⟨"a", "A", "[arguments ...]"⟩, 0, flagsObjA⟩
      (fun x y hxy => by simp [fidEq, hxy]) rfl rfl
  · rfl

/-! ## C5 -/

/-- The registry's invariant: a name is a key of the command map iff it
occurs in the `commandNames` order slice. -/
def namesKeysInv (a : RegApp) : Prop :=
  ∀ n, (lookupGo a.commands n).isSome ↔ n ∈ a.commandNames

theorem namesKeysInv_fresh (info : AppInfo) (g : FlagsObj) :
    namesKeysInv (freshRegApp info g) := by
  intro n
  simp [freshRegApp, lookupGo]

theorem namesKeysInv_step (deepEq : FlagsObj → FlagsObj → Bool) (a : RegApp)
    (info : CommandInfo) (execId : Nat) (fl : Option FlagsObj)
    (opt : Option String) (a' : RegApp)
    (h : setCommandReg deepEq a info execId fl = (opt, a'))
    (hinv : namesKeysInv a) : namesKeysInv a' := by
  cases opt with
  | some msg =>
      rw [setCommandReg_err_state deepEq a info execId fl msg a' h]
      exact hinv
  | none =>
      obtain ⟨hc, hn, _, _⟩ := setCommandReg_ok_state deepEq a info execId fl a' h
      intro n
      by_cases hne : n = info.name
      · subst hne
        rw [hc, lookupGo_upsert_self]
        simp only [Option.isSome_some, true_iff]
        rw [hn]
        by_cases hs : (lookupGo a.commands info.name).isSome = true
        · rw [if_pos hs]
          exact (hinv info.name).mp hs
        · rw [if_neg hs]
          exact List.mem_append_right _ (List.mem_singleton_self info.name)
      · rw [hc, lookupGo_upsert_other _ _ _ _ hne, hn]
        by_cases hs : (lookupGo a.commands info.name).isSome = true
        · rw [if_pos hs]
          exact hinv n
        · rw [if_neg hs]
          constructor
          · intro hh
            exact List.mem_append_left _ ((hinv n).mp hh)
          · intro hh
            rcases List.mem_append.mp hh with h1 | h1
            · exact (hinv n).mpr h1
            · simp only [List.mem_singleton] at h1
              exact absurd h1 hne

/-- Over any registration sequence, the order slice extends by exactly the
first successful registration of each new name, in order. -/
theorem applyRegs_names (deepEq : FlagsObj → FlagsObj → Bool) (evs : List RegEvent) :
    ∀ (a : RegApp), namesKeysInv a →
      (applyRegs deepEq a evs).commandNames =
        a.commandNames ++
          dedupKeepFirstAux a.commandNames (successNames deepEq a evs) := by
  induction evs with
  | nil =>
      intro a hinv
      simp [applyRegs, successNames, dedupKeepFirstAux]
  | cons e rest ih =>
      intro a hinv
      rcases hstep : setCommandReg deepEq a e.info e.execId e.flags with ⟨opt, a'⟩
      have happly : applyRegs deepEq a (e :: rest) = applyRegs deepEq a' rest := by
        simp [applyRegs, hstep]
      cases opt with
      | some msg =>
          have ha : a' = a := setCommandReg_err_state deepEq a e.info e.execId e.flags msg a' hstep
          have hsn : successNames deepEq a (e :: rest) = successNames deepEq a rest := by
            simp [successNames, hstep, ha]
          rw [happly, ha, hsn]
          exact ih a hinv
      | none =>
          have hinv' : namesKeysInv a' :=
            namesKeysInv_step deepEq a e.info e.execId e.flags none a' hstep hinv
          obtain ⟨_, hn, _, _⟩ := setCommandReg_ok_state deepEq a e.info e.execId e.flags a' hstep
          have hsn : successNames deepEq a (e :: rest) =
              e.info.name :: successNames deepEq a' rest := by
            simp [successNames, hstep]
          rw [happly, hsn, ih a' hinv']
          by_cases hmem : e.info.name ∈ a.commandNames
          · have hs : (lookupGo a.commands e.info.name).isSome = true := (hinv _).mpr hmem
            have hnames : a'.commandNames = a.commandNames := by rw [hn, if_pos hs]
            rw [hnames]
            simp only [dedupKeepFirstAux]
            rw [if_pos hmem]
          · have hs : ¬ (lookupGo a.commands e.info.name).isSome = true :=
              fun hh => hmem ((hinv _).mp hh)
            have hnames : a'.commandNames = a.commandNames ++ [e.info.name] := by
              rw [hn, if_neg hs]
            rw [hnames]
            simp only [dedupKeepFirstAux]
            rw [if_neg hmem, List.append_assoc, List.singleton_append]

/-- `CommandNames` returns a fresh slice holding the same contents as the
registry's order slice; writes through the returned reference do not
change the registry's slice. -/
theorem commandNamesHeap_spec (h : SliceHeap) (r : Nat) (hr : r < h.cells.length) :
    ((commandNamesHeap h r).1).read (commandNamesHeap h r).2 = h.read r ∧
    ¬ (commandNamesHeap h r).2 = r ∧
    ∀ i v, (((commandNamesHeap h r).1).writeAt (commandNamesHeap h r).2 i v).read r
      = h.read r := by
  refine ⟨?_, ?_, ?_⟩
  · simp [commandNamesHeap, SliceHeap.allocCopy, SliceHeap.read,
      List.get?_concat_length]
  · intro he
    simp only [commandNamesHeap, SliceHeap.allocCopy] at he
    omega
  · intro i v
    simp only [commandNamesHeap, SliceHeap.allocCopy, SliceHeap.writeAt,
      SliceHeap.read]
    rw [List.get?_set_ne _ _ (by omega)]
    rw [List.get?_append hr]

/-- C5: (a) a successful `SetCommand` appends the name to the order slice
only on first registration of that name and otherwise leaves the order
unchanged, while the command map gains exactly the new
metadata/executor/flags under that name and no other entry changes;
(b) hence over any registration sequence from a fresh app,
`CommandNames()` lists the successfully registered names in
first-registration order; and (c) the slice `CommandNames()` returns is a
defensive copy: a fresh reference with equal contents whose mutation
leaves the registry's slice unchanged. -/
theorem claimC5 :
    (∀ (deepEq : FlagsObj → FlagsObj → Bool) (a : RegApp) (info : CommandInfo)
        (execId : Nat) (flags : Option FlagsObj) (a' : RegApp),
        setCommandReg deepEq a info execId flags = (none, a') →
        (a'.commandNames =
            (if (lookupGo a.commands info.name).isSome then a.commandNames
             else a.commandNames ++ [info.name]) ∧
         lookupGo a'.commands info.name =
            some ⟨backfillUsage info, execId, storedFlags a flags⟩ ∧
         ∀ m, ¬ m = info.name → lookupGo a'.commands m = lookupGo a.commands m)) ∧
    (∀ (deepEq : FlagsObj → FlagsObj → Bool) (info0 : AppInfo) (g : FlagsObj)
        (evs : List RegEvent),
        (applyRegs deepEq (freshRegApp info0 g) evs).commandNames =
          dedupKeepFirst (successNames deepEq (freshRegApp info0 g) evs)) ∧
    (∀ (h : SliceHeap) (r : Nat), r < h.cells.length →
        ((commandNamesHeap h r).1).read (commandNamesHeap h r).2 = h.read r ∧
        ¬ (commandNamesHeap h r).2 = r ∧
        ∀ i v, (((commandNamesHeap h r).1).writeAt (commandNamesHeap h r).2 i v).read r
          = h.read r) := by
  refine ⟨?_, ?_, commandNamesHeap_spec⟩
  · intro deepEq a info execId flags a' h
    obtain ⟨hc, hn, _, _⟩ := setCommandReg_ok_state deepEq a info execId flags a' h
    refine ⟨hn, ?_, ?_⟩
    · rw [hc, lookupGo_upsert_self]
    · intro m hm
      rw [hc, lookupGo_upsert_other _ _ _ _ hm]
  · intro deepEq info0 g evs
    rw [applyRegs_names deepEq evs (freshRegApp info0 g) (namesKeysInv_fresh info0 g)]
    rfl

/-- A registration sequence: "foo", "bar", then an update of "foo". -/
def evsFix : List RegEvent :=
  [⟨⟨"foo", "", ""⟩, 0, none⟩, ⟨⟨"bar", "", ""⟩, 1, none⟩, ⟨⟨"foo", "updated", ""⟩, 2, none⟩]

/-- C5 witness: the claim applied at a concrete successful registration, a
concrete three-call sequence with a re-registration, and a concrete
one-slice heap. -/
theorem claimC5_witness :
    ((setCommandReg fidEq regAppFix ⟨"b", "B", ""⟩ 1 none).2).commandNames = ["a", "b"] ∧
    (applyRegs fidEq (freshRegApp testInfoX flagsObjGlobal) evsFix).commandNames =
      ["foo", "bar"] ∧
    (commandNamesHeap ⟨[["a"]]⟩ 0).1.read (commandNamesHeap ⟨[["a"]]⟩ 0).2 = ["a"] := by
  refine ⟨?_, ?_, ?_⟩
  · have h := (claimC5.1 fidEq regAppFix ⟨"b", "B", ""⟩ 1 none
      (setCommandReg fidEq regAppFix ⟨"b", "B", ""⟩ 1 none).2 rfl).1
    rw [h]
    rfl
  · rw [claimC5.2.1 fidEq testInfoX flagsObjGlobal evsFix]
    rfl
  · exact (claimC5.2.2 ⟨[["a"]]⟩ 0 (by decide)).1

/-! ## C7 -/

theorem lookupDef_append_some {defs : List FlagDef} (more : List FlagDef)
    {n : String} {e : FlagDef} (h : lookupDef defs n = some e) :
    lookupDef (defs ++ more) n = some e := by
  induction defs with
  | nil => simp [lookupDef] at h
  | cons d rest ih =>
      simp only [List.cons_append, lookupDef] at h ⊢
      by_cases hd : d.name = n
      · rw [if_pos hd] at h ⊢
        exact h
      · rw [if_neg hd] at h ⊢
        exact ih h

theorem lookupDef_append_none {defs : List FlagDef} (more : List FlagDef)
    {n : String} (h : lookupDef defs n = none) :
    lookupDef (defs ++ more) n = lookupDef more n := by
  induction defs with
  | nil => simp
  | cons d rest ih =>
      simp only [List.cons_append, lookupDef] at h ⊢
      by_cases hd : d.name = n
      · rw [if_pos hd] at h
        cases h
      · rw [if_neg hd] at h ⊢
        exact ih h

/-- The merge loop never changes the result of looking up a name already
defined locally: existing local definitions are never overwritten. -/
theorem mergeGlobalDefs_preserves (globals : List FlagDef) :
    ∀ (acc : List FlagDef) (n : String) (e : FlagDef),
      lookupDef acc n = some e →
      lookupDef (mergeGlobalDefs globals acc) n = some e := by
  induction globals with
  | nil =>
      intro acc n e h
      exact h
  | cons g rest ih =>
      intro acc n e h
      simp only [mergeGlobalDefs]
      by_cases hver : g.name = "version"
      · rw [if_pos hver]
        exact ih acc n e h
      · rw [if_neg hver]
        cases hlg : lookupDef acc g.name with
        | some _ => exact ih acc n e h
        | none => exact ih _ n e (lookupDef_append_some _ h)

/-- The merge loop copies every global flag other than the managed version
flag into the local scope when no local flag of that name exists. -/
theorem mergeGlobalDefs_copies (globals : List FlagDef) :
    ∀ (acc : List FlagDef) (d : FlagDef),
      d ∈ globals → (globals.map FlagDef.name).Nodup →
      ¬ d.name = "version" → lookupDef acc d.name = none →
      lookupDef (mergeGlobalDefs globals acc) d.name = some d := by
  induction globals with
  | nil =>
      intro acc d hd
      simp at hd
  | cons g rest ih =>
      intro acc d hd hnodup hver hnone
      rcases List.mem_cons.mp hd with heq | hd'
      · subst heq
        simp only [mergeGlobalDefs]
        rw [if_neg hver, hnone]
        apply mergeGlobalDefs_preserves
        rw [lookupDef_append_none _ hnone]
        simp [lookupDef]
      · have hgname : ¬ g.name = d.name := by
          intro he
          have hmm : g.name ∈ rest.map FlagDef.name :=
            he ▸ List.mem_map_of_mem FlagDef.name hd'
          exact (List.nodup_cons.mp hnodup).1 hmm
        have hnodup' := (List.nodup_cons.mp hnodup).2
        simp only [mergeGlobalDefs]
        by_cases hgver : g.name = "version"
        · rw [if_pos hgver]
          exact ih acc d hd' hnodup' hver hnone
        · rw [if_neg hgver]
          cases hlg : lookupDef acc g.name with
          | some _ => exact ih acc d hd' hnodup' hver hnone
          | none =>
              apply ih _ d hd' hnodup' hver
              rw [lookupDef_append_none _ hnone]
              simp [lookupDef, hgname]

/-- The global flags object of a freshly constructed app: what
`setupFlagSet (global := true)` leaves of the caller's object. -/
def globalAfterSetup : FlagsObj := setupFlagSet flagsObjGlobal flagsObjGlobal true

/-- A command-scope flags object defining no flag named "version". -/
def cmdScopeNoVersion : FlagsObj := ⟨5, [], true, false, true, true⟩

/-- C7 counterexample: the app's global scope carries the managed version
flag (injected at construction), the command scope — even after its own
managed-flag injection — has no flag of that name, and yet after
registration's merge the command scope still has none: the
copied-iff-absent equivalence fails at the version flag. -/
theorem claimC7_counterexample :
    versionFlagDef ∈ globalAfterSetup.defs ∧
    lookupDef (injectManagedFlags cmdScopeNoVersion false).defs "version" = none ∧
    lookupDef (setupFlagSet globalAfterSetup cmdScopeNoVersion false).defs "version"
      = none := by
  decide

/-- C7 (amended): during command registration the command scope's flag
list is the global→local merge of the global definitions into the
(injection-augmented) local scope; the merge copies every global flag
other than the managed version flag exactly when the command scope has
no flag of that name, and a flag already defined locally keeps its
original definition. -/
theorem claimC7 :
    (∀ (g f : FlagsObj), g.hasVisitAll = true → f.hasLookupVar = true →
        (setupFlagSet g f false).defs =
          mergeGlobalDefs g.defs (injectManagedFlags f false).defs) ∧
    (∀ (globals acc : List FlagDef) (d : FlagDef),
        d ∈ globals → (globals.map FlagDef.name).Nodup →
        ¬ d.name = "version" → lookupDef acc d.name = none →
        lookupDef (mergeGlobalDefs globals acc) d.name = some d) ∧
    (∀ (globals acc : List FlagDef) (n : String) (e : FlagDef),
        lookupDef acc n = some e →
        lookupDef (mergeGlobalDefs globals acc) n = some e) := by
  refine ⟨?_, ?_, ?_⟩
  · intro g f hvis hlook
    have hcond : (!false && g.hasVisitAll &&
        (injectManagedFlags f false).hasLookupVar) = true := by
      simp [injectManagedFlags, hvis, hlook]
    unfold setupFlagSet
    rw [if_pos hcond]
  · intro globals acc d hd hnodup hver hnone
    exact mergeGlobalDefs_copies globals acc d hd hnodup hver hnone
  · intro globals acc n e h
    exact mergeGlobalDefs_preserves globals acc n e h

/-- C7 witness: a concrete user-defined global flag is merged into a
command scope lacking it, and a concrete local definition survives a
merge that offers a competing global of the same name. -/
theorem claimC7_witness :
    lookupDef (mergeGlobalDefs [⟨"timezone", "&tz", "the timezone"⟩] []) "timezone" =
      some ⟨"timezone", "&tz", "the timezone"⟩ ∧
    lookupDef
        (mergeGlobalDefs [⟨"level", "&glvl", "global level"⟩]
          [⟨"level", "&clvl", "command level"⟩]) "level" =
      some ⟨"level", "&clvl", "command level"⟩ := by
  constructor
  · exact claimC7.2.1 [⟨"timezone", "&tz", "the timezone"⟩] [] _
      (List.mem_singleton_self _) (by decide) (by decide) rfl
  · exact claimC7.2.2 [⟨"level", "&glvl", "global level"⟩] _ "level" _ rfl

/-! ## C8 -/

/-- The merge loop never introduces a flag named "version". -/
theorem mergeGlobalDefs_filter_version (globals : List FlagDef) :
    ∀ (acc : List FlagDef),
      (mergeGlobalDefs globals acc).filter (fun d => d.name = "version") =
        acc.filter (fun d => d.name = "version") := by
  induction globals with
  | nil => intro acc; rfl
  | cons g rest ih =>
      intro acc
      simp only [mergeGlobalDefs]
      by_cases hver : g.name = "version"
      · rw [if_pos hver]
        exact ih acc
      · rw [if_neg hver]
        cases hlg : lookupDef acc g.name with
        | some _ => exact ih acc
        | none =>
            rw [ih _, List.filter_append]
            simp [hver]

/-- C8: a non-global `setupFlagSet` (the one `SetCommand` applies to every
command scope) leaves the scope's set of version-named flags exactly as
the caller defined it — the managed `--version` flag is never injected
or merged into a per-command scope; on the global scope, `setupFlagSet`
appends the managed version flag (when the collaborator supports boolean
registration); and consequently the flags object stored for any
successfully registered command carries no version-named flag beyond
those the caller itself defined. -/
theorem claimC8 :
    (∀ (g f : FlagsObj),
        (setupFlagSet g f false).defs.filter (fun d => d.name = "version") =
          f.defs.filter (fun d => d.name = "version")) ∧
    (∀ (g f : FlagsObj), f.hasBoolVar = true →
        (setupFlagSet g f true).defs =
          (f.defs ++ (if f.hasBoolVarP || f.hasBoolVar then [helpFlagDef] else [])) ++
            [versionFlagDef]) ∧
    (∀ (deepEq : FlagsObj → FlagsObj → Bool) (a : RegApp) (info : CommandInfo)
        (execId : Nat) (flags : Option FlagsObj) (a' : RegApp),
        setCommandReg deepEq a info execId flags = (none, a') →
        ∃ c, lookupGo a'.commands info.name = some c ∧
          c.flags.defs.filter (fun d => d.name = "version") =
            (match flags with
             | some f => f.defs
             | none => ([] : List FlagDef)).filter (fun d => d.name = "version")) := by
  have hbase : ∀ (g f : FlagsObj),
      (setupFlagSet g f false).defs.filter (fun d => d.name = "version") =
        f.defs.filter (fun d => d.name = "version") := by
    intro g f
    have hinj : (injectManagedFlags f false).defs.filter (fun d => d.name = "version") =
        f.defs.filter (fun d => d.name = "version") := by
      simp only [injectManagedFlags, List.filter_append]
      by_cases h1 : (f.hasBoolVarP || f.hasBoolVar) = true <;>
        simp [h1, helpFlagDef]
    unfold setupFlagSet
    by_cases hg : (!false && g.hasVisitAll && (injectManagedFlags f false).hasLookupVar) = true
    · rw [if_pos hg]
      simp only []
      rw [mergeGlobalDefs_filter_version]
      exact hinj
    · rw [if_neg hg]
      exact hinj
  refine ⟨hbase, ?_, ?_⟩
  · intro g f hb
    unfold setupFlagSet
    rw [if_neg (by simp)]
    simp [injectManagedFlags, hb]
  · intro deepEq a info execId flags a' h
    obtain ⟨hc, _, _, _⟩ := setCommandReg_ok_state deepEq a info execId flags a' h
    refine ⟨⟨backfillUsage info, execId, storedFlags a flags⟩, ?_, ?_⟩
    · rw [hc, lookupGo_upsert_self]
    · unfold storedFlags
      cases flags with
      | some f => exact hbase a.globalFlags f
      | none =>
          rw [hbase a.globalFlags (createDefaultFlags a.nextId)]
          rfl

/-- A third flags object with a fresh identity and one user flag. -/
def flagsObjB : FlagsObj := ⟨9, [⟨"level", "&lvl", "the level"⟩], true, false, true, true⟩

/-- C8 witness: the claim applied at concrete inputs — the version flag is
appended to a concrete global scope, and a concrete registered command
stores a flags object with no version-named flag. -/
theorem claimC8_witness :
    (setupFlagSet flagsObjGlobal flagsObjGlobal true).defs =
      [helpFlagDef, versionFlagDef] ∧
    ∃ c, lookupGo ((setCommandReg fidEq regAppFix ⟨"c", "C", ""⟩ 3
        (some flagsObjB)).2).commands "c" = some c ∧
      c.flags.defs.filter (fun d => d.name = "version") =
        flagsObjB.defs.filter (fun d => d.name = "version") := by
  constructor
  · exact (claimC8.2.1 flagsObjGlobal flagsObjGlobal rfl).trans (by decide)
  · exact claimC8.2.2 fidEq regAppFix ⟨"c", "C", ""⟩ 3 (some flagsObjB)
      (setCommandReg fidEq regAppFix ⟨"c", "C", ""⟩ 3 (some flagsObjB)).2 rfl

end Lieut
